import Mathlib

/-!
Verification of the user-service request pipeline of `project-layout`
(`internal/app/user-service/{model,repository,service,handler}`).

The three Go layers are shallowly embedded as pure Lean functions:

* the Persistence Gateway (`repository/user_repository.go`) acts on an
  explicit `Store` (a list of rows plus an id counter and a clock) and
  models the ORM primitives it invokes: every query carries the
  soft-delete scope (`deleted_at IS NULL`), `Delete` sets `deletedAt`
  instead of removing the row, `Create` fills `id`/`createdAt`/`updatedAt`
  and runs the `BeforeCreate` hook, and `Update` performs the gateway
  contract's full-record update of the addressed row, refreshing
  `updatedAt`;
* the Domain Service (`service/user_service.go`) is parameterised by the
  password-hash function (the bcrypt call is an external library);
* the Protocol Handler (`handler/user_handler.go`) maps requests to
  service calls and domain errors to wire statuses.

Go `int` / `int32` pagination values are modelled as `Int` (no claim here
depends on 32-bit overflow), timestamps as `Nat` ticks of the store clock,
and `model.UserStatus` (a Go string type) as `String`.
-/

/-- Status constants from `model/user.go`. `model.UserStatus` is a string type. -/
def UserStatusActive : String := "active"

def UserStatusInactive : String := "inactive"

def UserStatusSuspended : String := "suspended"

/-- The `User` entity (`model/user.go`). `Password` is the stored credential
hash (`json:"-"`), `DeletedAt` the soft-delete marker (`gorm.DeletedAt`). -/
structure User where
  id : String
  email : String
  password : String
  firstName : String
  lastName : String
  phone : String
  status : String
  createdAt : Nat
  updatedAt : Nat
  deletedAt : Option Nat
deriving Repr, DecidableEq

/-- Domain/gateway error vocabulary: the three repository errors
(`user_repository.go`), the two service validation errors
(`user_service.go`), and wrapped internal failures. -/
inductive Err where
  | userNotFound
  | userAlreadyExists
  | invalidUserData
  | invalidEmail
  | invalidPassword
  | internal (msg : String)
deriving Repr, DecidableEq

/-- The relational store behind the gateway: the `users` table plus the
id generator (`gen_random_uuid()`) and the clock feeding
`autoCreateTime` / `autoUpdateTime` / soft-delete timestamps. -/
structure Store where
  rows : List User
  nextId : Nat
  now : Nat
deriving Repr, DecidableEq

/-- A row is visible to normal queries iff it is not soft-deleted: the ORM
adds `deleted_at IS NULL` to every query on a model with a
`gorm.DeletedAt` field. -/
def isActive (u : User) : Bool := u.deletedAt.isNone

/-- `SELECT ... WHERE <p> AND deleted_at IS NULL LIMIT 1` in row order. -/
def Store.findActive (s : Store) (p : User → Bool) : Option User :=
  s.rows.find? (fun u => isActive u && p u)

/-- Substring occurrence, the meaning of the SQL pattern match
`LIKE '%' || f || '%'` for a non-empty `f`. -/
def occursIn (f hay : String) : Bool := (hay.splitOn f).length != 1

/-- The WHERE clause of `userRepository.List`: no filter when `filter` is
empty, otherwise a substring match against first name, last name or email. -/
def matchesFilter (filter : String) (u : User) : Bool :=
  filter == "" ||
    (occursIn filter u.firstName || occursIn filter u.lastName || occursIn filter u.email)

/-- `userRepository.Create`: `nil` argument is `ErrInvalidUserData`; an
active row with the same email is `ErrUserAlreadyExists`; otherwise the
row is inserted with storage-assigned `id`/`createdAt`/`updatedAt` and the
`BeforeCreate` hook defaulting an empty status to active. Returns the
stored row (Go fills the caller's struct in place) and the new store. -/
def repoCreate (ou : Option User) (s : Store) : Except Err User × Store :=
  match ou with
  | none => (.error .invalidUserData, s)
  | some user =>
    match s.findActive (fun u => u.email == user.email) with
    | some _ => (.error .userAlreadyExists, s)
    | none =>
      let u : User :=
        { user with
          id := "id-" ++ toString s.nextId
          status := if user.status = "" then UserStatusActive else user.status
          createdAt := s.now
          updatedAt := s.now
          deletedAt := none }
      (.ok u, { rows := s.rows ++ [u], nextId := s.nextId + 1, now := s.now + 1 })

/-- `userRepository.GetByID`: first active row with the id, else
`ErrUserNotFound`. Reads do not change the store. -/
def repoGetByID (id : String) (s : Store) : Except Err User :=
  match s.findActive (fun u => u.id == id) with
  | some u => .ok u
  | none => .error .userNotFound

/-- `userRepository.GetByEmail`: same semantics keyed by email. -/
def repoGetByEmail (email : String) (s : Store) : Except Err User :=
  match s.findActive (fun u => u.email == email) with
  | some u => .ok u
  | none => .error .userNotFound

/-- The ORM's zero-value rule for a string column in a struct-based
`Updates`: an empty ("zero") supplied value is skipped and the stored
value kept; a non-empty value is written. -/
def nzString (v old : String) : String := if v = "" then old else v

/-- The row produced by `db.Model(user).Updates(user)` for an addressed
row `r`: only the non-zero string fields of `user` are written (`id` is
the primary key, `createdAt` is `autoCreateTime` and not updated, the
soft-delete marker is untouched) and `updatedAt` is refreshed by
`autoUpdateTime`. -/
def updRow (user r : User) (now : Nat) : User :=
  { id := r.id
    email := nzString user.email r.email
    password := nzString user.password r.password
    firstName := nzString user.firstName r.firstName
    lastName := nzString user.lastName r.lastName
    phone := nzString user.phone r.phone
    status := nzString user.status r.status
    createdAt := r.createdAt
    updatedAt := now
    deletedAt := r.deletedAt }

/-- `userRepository.Update`: `nil` or empty-id argument is
`ErrInvalidUserData`; otherwise `db.Model(user).Updates(user)` addresses
the active rows with the given id and writes only the non-zero fields of
the supplied record (GORM struct-based `Updates` skips zero values),
refreshing `updatedAt`; zero affected rows is `ErrUserNotFound`. On
success the ORM also writes the refreshed `updatedAt` back into the
caller's struct, returned here as the `ok` value. -/
def repoUpdate (ou : Option User) (s : Store) : Except Err User × Store :=
  match ou with
  | none => (.error .invalidUserData, s)
  | some user =>
    if user.id = "" then (.error .invalidUserData, s)
    else if s.rows.any (fun r => isActive r && r.id == user.id) then
      (.ok { user with updatedAt := s.now },
        { s with
          rows := s.rows.map (fun r =>
            if isActive r && r.id == user.id then updRow user r s.now else r)
          now := s.now + 1 })
    else (.error .userNotFound, s)

/-- `userRepository.Delete`: soft delete, `UPDATE users SET deleted_at = now
WHERE id = ? AND deleted_at IS NULL`; zero affected rows is
`ErrUserNotFound`. No id validation happens on this path. -/
def repoDelete (id : String) (s : Store) : Except Err Unit × Store :=
  if s.rows.any (fun r => isActive r && r.id == id) then
    (.ok (),
      { s with
        rows := s.rows.map (fun r =>
          if isActive r && r.id == id then { r with deletedAt := some s.now } else r)
        now := s.now + 1 })
  else (.error .userNotFound, s)

/-- `userRepository.List`: count of active rows matching the filter, then
the page at `OFFSET (page-1)*pageSize LIMIT pageSize` in row order. -/
def repoList (page pageSize : Int) (filter : String) (s : Store) : List User × Nat :=
  let matching := s.rows.filter (fun u => isActive u && matchesFilter filter u)
  let offset := (page - 1) * pageSize
  ((matching.drop offset.toNat).take pageSize.toNat, matching.length)

/-! ## Domain Service (`service/user_service.go`) -/

/-- A value of the Go `map[string]interface{}` updates map: dynamically
typed, either a `string` or a `model.UserStatus`. -/
inductive UpdVal where
  | str (v : String)
  | status (v : String)
deriving Repr, DecidableEq

/-- The updates map, as an association list (Go maps hold one value per
key; lookup takes the first binding). -/
def Updates := List (String × UpdVal)

/-- Go `updates[k].(string)`: `some` iff key `k` is present with a
`string`-typed value. -/
def getStrUpd (m : Updates) (k : String) : Option String :=
  match List.lookup k m with
  | some (.str v) => some v
  | _ => none

/-- Go `updates[k].(model.UserStatus)`: `some` iff key `k` is present with
a `UserStatus`-typed value. -/
def getStatusUpd (m : Updates) (k : String) : Option String :=
  match List.lookup k m with
  | some (.status v) => some v
  | _ => none

/-- The merge step of `userService.UpdateUser`: apply only the keys
present in `updates` (five type-asserted lookups), leaving every other
field of the fetched record alone. -/
def applyUpdates (user : User) (m : Updates) : User :=
  let user := match getStrUpd m "email" with
    | some v => { user with email := v } | none => user
  let user := match getStrUpd m "first_name" with
    | some v => { user with firstName := v } | none => user
  let user := match getStrUpd m "last_name" with
    | some v => { user with lastName := v } | none => user
  let user := match getStrUpd m "phone" with
    | some v => { user with phone := v } | none => user
  match getStatusUpd m "status" with
    | some v => { user with status := v } | none => user

/-- `userService.CreateUser` over an abstract gateway `create` (the
repository is an interface; this makes "no storage call happens on
validation failure" provable by quantifying over `create`). `hash` is the
bcrypt call. Validation: empty email is `ErrInvalidEmail`; an empty
password or one whose UTF-8 byte length (Go `len` counts bytes, not
characters) is below 8 is `ErrInvalidPassword`. -/
def svcCreateUserWith (create : Option User → Except Err User × Store)
    (hash : String → String)
    (email password firstName lastName phone : String) (s : Store) :
    Except Err User × Store :=
  if email = "" then (.error .invalidEmail, s)
  else if password = "" || password.utf8ByteSize < 8 then (.error .invalidPassword, s)
  else
    create (some
      { id := "", email := email, password := hash password
        firstName := firstName, lastName := lastName, phone := phone
        status := UserStatusActive, createdAt := 0, updatedAt := 0, deletedAt := none })

/-- `userService.CreateUser` against the concrete repository. -/
def svcCreateUser (hash : String → String)
    (email password firstName lastName phone : String) (s : Store) :
    Except Err User × Store :=
  svcCreateUserWith (fun u => repoCreate u s) hash email password firstName lastName phone s

/-- `userService.GetUser`: pure delegation. -/
def svcGetUser (id : String) (s : Store) : Except Err User := repoGetByID id s

/-- `userService.GetUserByEmail`: pure delegation. -/
def svcGetUserByEmail (email : String) (s : Store) : Except Err User :=
  repoGetByEmail email s

/-- `userService.UpdateUser`: fetch the record, merge the sparse updates,
delegate to the gateway update, and return the same record the gateway
mutated in place (it carries the refreshed `updatedAt`). -/
def svcUpdateUser (id : String) (m : Updates) (s : Store) : Except Err User × Store :=
  match repoGetByID id s with
  | .error e => (.error e, s)
  | .ok user =>
    let merged := applyUpdates user m
    match repoUpdate (some merged) s with
    | (.error e, s') => (.error e, s')
    | (.ok written, s') => (.ok written, s')

/-- `userService.DeleteUser`: pure delegation, no local validation. -/
def svcDeleteUser (id : String) (s : Store) : Except Err Unit × Store := repoDelete id s

/-- The page clamp of `userService.ListUsers`. -/
def clampPage (page : Int) : Int := if page < 1 then 1 else page

/-- The page-size clamp of `userService.ListUsers`: out of [1,100] means 10. -/
def clampPageSize (pageSize : Int) : Int :=
  if pageSize < 1 || pageSize > 100 then 10 else pageSize

/-- `userService.ListUsers`: clamp, then delegate to the gateway. -/
def svcListUsers (page pageSize : Int) (filter : String) (s : Store) : List User × Nat :=
  repoList (clampPage page) (clampPageSize pageSize) filter s

/-! ## Protocol Handler (`handler/user_handler.go`) -/

/-- Wire user status (`pb.UserStatus`). -/
inductive PbUserStatus where
  | unspecified
  | active
  | inactive
  | suspended
deriving Repr, DecidableEq

/-- Wire user representation (`pb.User` as populated by `modelToProto`). -/
structure PbUser where
  id : String
  email : String
  firstName : String
  lastName : String
  phone : String
  status : PbUserStatus
  createdAt : Nat
  updatedAt : Nat
deriving Repr, DecidableEq

/-- gRPC status codes used by the handler. -/
inductive Code where
  | alreadyExists
  | notFound
  | internal
deriving Repr, DecidableEq

/-- A gRPC error status: code plus message (`status.Error(code, msg)`). -/
structure GrpcStatus where
  code : Code
  msg : String
deriving Repr, DecidableEq

/-- `UserHandler.modelStatusToProto`. -/
def modelStatusToProto (status : String) : PbUserStatus :=
  if status == UserStatusActive then .active
  else if status == UserStatusInactive then .inactive
  else if status == UserStatusSuspended then .suspended
  else .unspecified

/-- `UserHandler.protoStatusToModel`: unrecognized wire status decodes to
the active domain status. -/
def protoStatusToModel (status : PbUserStatus) : String :=
  match status with
  | .active => UserStatusActive
  | .inactive => UserStatusInactive
  | .suspended => UserStatusSuspended
  | .unspecified => UserStatusActive

/-- `UserHandler.modelToProto`: the only encoder of entities onto the
wire. It reads eight fields of the model and never the credential. -/
def modelToProto (u : User) : PbUser :=
  { id := u.id, email := u.email, firstName := u.firstName, lastName := u.lastName
    phone := u.phone, status := modelStatusToProto u.status
    createdAt := u.createdAt, updatedAt := u.updatedAt }

/-- `pb.CreateUserRequest`. -/
structure CreateUserRequest where
  email : String
  password : String
  firstName : String
  lastName : String
  phone : String
deriving Repr, DecidableEq

/-- `pb.GetUserRequest`. -/
structure GetUserRequest where
  id : String
deriving Repr, DecidableEq

/-- `pb.GetUserByEmailRequest`. -/
structure GetUserByEmailRequest where
  email : String
deriving Repr, DecidableEq

/-- `pb.UpdateUserRequest`: optional (pointer) fields are `Option`s. -/
structure UpdateUserRequest where
  id : String
  email : Option String
  firstName : Option String
  lastName : Option String
  phone : Option String
  status : Option PbUserStatus
deriving Repr, DecidableEq

/-- `pb.DeleteUserRequest`. -/
structure DeleteUserRequest where
  id : String
deriving Repr, DecidableEq

/-- `pb.ListUsersRequest`. -/
structure ListUsersRequest where
  page : Int
  pageSize : Int
  filter : String
deriving Repr, DecidableEq

/-- `pb.ListUsersResponse`. -/
structure ListUsersResponse where
  users : List PbUser
  total : Int
  page : Int
  pageSize : Int
deriving Repr, DecidableEq

/-- Error mapping of `UserHandler.CreateUser`: `ErrUserAlreadyExists` maps
to the conflict code; every other error maps to a generic internal
failure with a fixed message. -/
def createErrStatus (e : Err) : GrpcStatus :=
  match e with
  | .userAlreadyExists => { code := .alreadyExists, msg := "user already exists" }
  | _ => { code := .internal, msg := "failed to create user" }

/-- Error mapping of `UserHandler.GetUser` and `GetUserByEmail`. -/
def getErrStatus (e : Err) : GrpcStatus :=
  match e with
  | .userNotFound => { code := .notFound, msg := "user not found" }
  | _ => { code := .internal, msg := "failed to get user" }

/-- Error mapping of `UserHandler.UpdateUser`. -/
def updateErrStatus (e : Err) : GrpcStatus :=
  match e with
  | .userNotFound => { code := .notFound, msg := "user not found" }
  | _ => { code := .internal, msg := "failed to update user" }

/-- Error mapping of `UserHandler.DeleteUser`. -/
def deleteErrStatus (e : Err) : GrpcStatus :=
  match e with
  | .userNotFound => { code := .notFound, msg := "user not found" }
  | _ => { code := .internal, msg := "failed to delete user" }

/-- `UserHandler.CreateUser`. -/
def handlerCreateUser (hash : String → String) (req : CreateUserRequest) (s : Store) :
    Except GrpcStatus PbUser × Store :=
  match svcCreateUser hash req.email req.password req.firstName req.lastName req.phone s with
  | (.error e, s') => (.error (createErrStatus e), s')
  | (.ok u, s') => (.ok (modelToProto u), s')

/-- `UserHandler.GetUser`. -/
def handlerGetUser (req : GetUserRequest) (s : Store) : Except GrpcStatus PbUser :=
  match svcGetUser req.id s with
  | .error e => .error (getErrStatus e)
  | .ok u => .ok (modelToProto u)

/-- `UserHandler.GetUserByEmail`. -/
def handlerGetUserByEmail (req : GetUserByEmailRequest) (s : Store) :
    Except GrpcStatus PbUser :=
  match svcGetUserByEmail req.email s with
  | .error e => .error (getErrStatus e)
  | .ok u => .ok (modelToProto u)

/-- The updates map built by `UserHandler.UpdateUser` from the optional
request fields; a present wire status is decoded with
`protoStatusToModel` and stored as a `UserStatus`-typed value. -/
def buildUpdates (req : UpdateUserRequest) : Updates :=
  (match req.email with | some v => [("email", UpdVal.str v)] | none => []) ++
  (match req.firstName with | some v => [("first_name", UpdVal.str v)] | none => []) ++
  (match req.lastName with | some v => [("last_name", UpdVal.str v)] | none => []) ++
  (match req.phone with | some v => [("phone", UpdVal.str v)] | none => []) ++
  (match req.status with
    | some v => [("status", UpdVal.status (protoStatusToModel v))] | none => [])

/-- `UserHandler.UpdateUser`. -/
def handlerUpdateUser (req : UpdateUserRequest) (s : Store) :
    Except GrpcStatus PbUser × Store :=
  match svcUpdateUser req.id (buildUpdates req) s with
  | (.error e, s') => (.error (updateErrStatus e), s')
  | (.ok u, s') => (.ok (modelToProto u), s')

/-- `UserHandler.DeleteUser`: returns `Empty{}` (modelled as `Unit`). -/
def handlerDeleteUser (req : DeleteUserRequest) (s : Store) :
    Except GrpcStatus Unit × Store :=
  match svcDeleteUser req.id s with
  | (.error e, s') => (.error (deleteErrStatus e), s')
  | (.ok _, s') => (.ok (), s')

/-- The handler-side page clamp of `UserHandler.ListUsers`. -/
def handlerClampPage (page : Int) : Int := if page < 1 then 1 else page

/-- The handler-side page-size clamp of `UserHandler.ListUsers`: only the
lower bound is checked here (values above 100 pass through). -/
def handlerClampPageSize (pageSize : Int) : Int := if pageSize < 1 then 10 else pageSize

/-- `UserHandler.ListUsers`: sanitizes `page`/`pageSize` locally, calls the
service (which clamps again), and echoes its own local values in the
response. -/
def handlerListUsers (req : ListUsersRequest) (s : Store) :
    Except GrpcStatus ListUsersResponse :=
  let page := handlerClampPage req.page
  let pageSize := handlerClampPageSize req.pageSize
  let r := svcListUsers page pageSize req.filter s
  .ok { users := r.1.map modelToProto, total := (r.2 : Int), page := page, pageSize := pageSize }

/-! ## Auxiliary definitions for the verified properties -/

/-- The claimed protocol error mapping (spec section 4.3 / 7):
conflict for `AlreadyExists`, not-found for `NotFound`, a generic
internal failure for every other kind. -/
def claimedCode (e : Err) : Code :=
  match e with
  | .userAlreadyExists => .alreadyExists
  | .userNotFound => .notFound
  | _ => .internal

/-- Rewrite a row's stored credential hash (and nothing else). -/
def scrubUser (g : User → String) (u : User) : User := { u with password := g u }

/-- Rewrite every stored credential hash in the store. Wire responses must
be invariant under this: the credential never reaches the wire. -/
def scrub (g : User → String) (s : Store) : Store :=
  { s with rows := s.rows.map (scrubUser g) }

/-- An empty store. -/
def storeEmpty : Store := { rows := [], nextId := 0, now := 0 }

/-- Sample active row. -/
def uAlice : User :=
  { id := "id-0", email := "alice@x.com", password := "hash-alice"
    firstName := "Alice", lastName := "Ang", phone := "111"
    status := "active", createdAt := 0, updatedAt := 0, deletedAt := none }

/-- Sample soft-deleted row. -/
def uDora : User :=
  { id := "id-1", email := "dora@x.com", password := "hash-dora"
    firstName := "Dora", lastName := "Del", phone := "222"
    status := "active", createdAt := 1, updatedAt := 1, deletedAt := some 5 }

/-- Sample store: one active row, one soft-deleted row. -/
def sSample : Store := { rows := [uAlice, uDora], nextId := 2, now := 6 }

/-- Sample creation candidate with a fresh email. -/
def uNew : User :=
  { id := "", email := "new@x.com", password := "hash-new"
    firstName := "Nia", lastName := "New", phone := "333"
    status := "active", createdAt := 0, updatedAt := 0, deletedAt := none }

/-! ## Helper lemmas -/

/-- Inversion for a successful active-row lookup. -/
theorem findActive_some_inv {s : Store} {p : User → Bool} {u : User}
    (h : s.findActive p = some u) :
    u ∈ s.rows ∧ isActive u = true ∧ p u = true := by
  have hmem := List.mem_of_find?_eq_some h
  have hp := List.find?_some h
  simp only [Bool.and_eq_true] at hp
  exact ⟨hmem, hp.1, hp.2⟩

/-- An active-row lookup fails exactly when no active row satisfies the
predicate. -/
theorem findActive_none_iff {s : Store} {p : User → Bool} :
    s.findActive p = none ↔ ∀ u ∈ s.rows, ¬(isActive u = true ∧ p u = true) := by
  unfold Store.findActive
  rw [List.find?_eq_none]
  constructor
  · intro h u hu
    have := h u hu
    simp only [Bool.and_eq_true] at this
    exact this
  · intro h u hu
    have := h u hu
    simp only [Bool.and_eq_true]
    exact this

/-- An active-row lookup succeeds exactly when some active row satisfies
the predicate. -/
theorem findActive_isSome_iff {s : Store} {p : User → Bool} :
    (s.findActive p).isSome = true ↔ ∃ u ∈ s.rows, isActive u = true ∧ p u = true := by
  unfold Store.findActive
  rw [List.find?_isSome]
  simp only [Bool.and_eq_true]

/-- Closed form of the sparse merge of `userService.UpdateUser`: each of
the five permitted keys overrides its field when present with the right
dynamic type; everything else is taken from the fetched record. -/
theorem applyUpdates_eq (u : User) (m : Updates) :
    applyUpdates u m =
      { u with
        email := (getStrUpd m "email").getD u.email
        firstName := (getStrUpd m "first_name").getD u.firstName
        lastName := (getStrUpd m "last_name").getD u.lastName
        phone := (getStrUpd m "phone").getD u.phone
        status := (getStatusUpd m "status").getD u.status } := by
  unfold applyUpdates
  cases getStrUpd m "email" <;> cases getStrUpd m "first_name" <;>
    cases getStrUpd m "last_name" <;> cases getStrUpd m "phone" <;>
    cases getStatusUpd m "status" <;> rfl

/-- The only error `userRepository.Create` reports on a non-nil argument
is `ErrUserAlreadyExists`. -/
theorem repoCreate_some_err {u : User} {s : Store} {e : Err}
    (h : (repoCreate (some u) s).1 = .error e) : e = .userAlreadyExists := by
  simp only [repoCreate] at h
  cases hf : s.findActive (fun r => r.email == u.email) <;> rw [hf] at h <;>
    simp_all

/-- Pairing a list with its image under a row transformer. -/
theorem forall₂_map_self {R : User → User → Prop} {f : User → User} {l : List User}
    (h : ∀ a ∈ l, R a (f a)) : List.Forall₂ R l (l.map f) := by
  rw [List.forall₂_map_right_iff]
  exact (List.forall₂_same).mpr h

/-! ## Claim theorems -/

/-- C5: for every page and pageSize, the Domain Service's listUsers
delegates to the gateway with page clamped to at least 1, and with
pageSize replaced by 10 whenever it lies outside [1,100] and unchanged
otherwise. -/
theorem C5_service_clamps (page pageSize : Int) (filter : String) (s : Store) :
    svcListUsers page pageSize filter s =
      repoList (clampPage page) (clampPageSize pageSize) filter s ∧
    1 ≤ clampPage page ∧
    (1 ≤ page → clampPage page = page) ∧
    (1 ≤ pageSize ∧ pageSize ≤ 100 → clampPageSize pageSize = pageSize) ∧
    (pageSize < 1 ∨ 100 < pageSize → clampPageSize pageSize = 10) := by
  refine ⟨rfl, ?_, ?_, ?_, ?_⟩
  · unfold clampPage; split <;> omega
  · intro h; unfold clampPage; split <;> omega
  · rintro ⟨h1, h2⟩; unfold clampPageSize
    simp only [decide_eq_true_eq, Bool.or_eq_true]
    split <;> omega
  · intro h; unfold clampPageSize
    split
    · rfl
    · rename_i hc
      simp only [Bool.or_eq_true, decide_eq_true_eq, not_or] at hc
      omega

/-- Witness for C5 at the spec's own example input (page 0, pageSize 500)
and at an in-range input (pageSize 50). -/
theorem C5_service_clamps_witness :
    svcListUsers 0 500 "" sSample = repoList (clampPage 0) (clampPageSize 500) "" sSample ∧
    clampPageSize 500 = 10 ∧ clampPage 0 = 1 ∧ clampPageSize 50 = 50 := by
  refine ⟨(C5_service_clamps 0 500 "" sSample).1,
    (C5_service_clamps 0 500 "" sSample).2.2.2.2 (by decide), by decide,
    (C5_service_clamps 0 50 "" sSample).2.2.2.1 (by decide)⟩

/-- `userService.CreateUser` with an empty email rejects before touching
any gateway. -/
theorem svcCreateUserWith_email_empty
    (create : Option User → Except Err User × Store) (hash : String → String)
    {email : String} (password firstName lastName phone : String) (s : Store)
    (he : email = "") :
    svcCreateUserWith create hash email password firstName lastName phone s =
      (.error .invalidEmail, s) := by
  unfold svcCreateUserWith
  rw [if_pos he]

/-- `userService.CreateUser` with a short or empty password rejects before
touching any gateway. -/
theorem svcCreateUserWith_bad_password
    (create : Option User → Except Err User × Store) (hash : String → String)
    {email password : String} (firstName lastName phone : String) (s : Store)
    (he : email ≠ "") (hp : password = "" ∨ password.utf8ByteSize < 8) :
    svcCreateUserWith create hash email password firstName lastName phone s =
      (.error .invalidPassword, s) := by
  unfold svcCreateUserWith
  rw [if_neg he, if_pos (by simpa using hp)]

/-- On valid input, `userService.CreateUser` delegates the hashed record
to the gateway `create`. -/
theorem svcCreateUserWith_valid
    (create : Option User → Except Err User × Store) (hash : String → String)
    {email password : String} (firstName lastName phone : String) (s : Store)
    (he : email ≠ "") (hp : ¬(password = "" ∨ password.utf8ByteSize < 8)) :
    svcCreateUserWith create hash email password firstName lastName phone s =
      create (some
        { id := "", email := email, password := hash password
          firstName := firstName, lastName := lastName, phone := phone
          status := UserStatusActive, createdAt := 0, updatedAt := 0, deletedAt := none }) := by
  unfold svcCreateUserWith
  rw [if_neg he, if_neg (by simpa using hp)]

/-- C3 counterexample: the Go check is `len(password) < 8`, which counts
UTF-8 bytes. The password below has 4 characters but 8 bytes, so creation
succeeds, refuting "fails with InvalidPassword iff the password is empty
or shorter than 8 characters". -/
theorem C3_password_bytes_counterexample :
    ("\u00e9\u00e9\u00e9\u00e9" : String).length = 4 ∧
    ("\u00e9\u00e9\u00e9\u00e9" : String).utf8ByteSize = 8 ∧
    (svcCreateUser (fun p => "H" ++ p) "new@x.com" "\u00e9\u00e9\u00e9\u00e9"
        "F" "L" "P" sSample).1 =
      .ok { id := "id-2", email := "new@x.com", password := "H\u00e9\u00e9\u00e9\u00e9"
            firstName := "F", lastName := "L", phone := "P", status := "active"
            createdAt := 6, updatedAt := 6, deletedAt := none } := by
  refine ⟨by decide, by decide, rfl⟩

/-- C3 amended: createUser fails with InvalidEmail iff the email is empty
and, for a non-empty email, with InvalidPassword iff the password is
empty or its UTF-8 byte length is below 8 (Go `len` counts bytes, not
characters); in both failure cases no gateway call happens (the outcome
is the same for every gateway `create`) and the store is unchanged. -/
theorem C3_create_validation (hash : String → String)
    (email password firstName lastName phone : String) (s : Store) :
    ((svcCreateUser hash email password firstName lastName phone s).1 =
        .error .invalidEmail ↔ email = "") ∧
    (email ≠ "" →
      ((svcCreateUser hash email password firstName lastName phone s).1 =
          .error .invalidPassword ↔ (password = "" ∨ password.utf8ByteSize < 8))) ∧
    (∀ create, email = "" →
      svcCreateUserWith create hash email password firstName lastName phone s =
        (.error .invalidEmail, s)) ∧
    (∀ create, email ≠ "" → (password = "" ∨ password.utf8ByteSize < 8) →
      svcCreateUserWith create hash email password firstName lastName phone s =
        (.error .invalidPassword, s)) := by
  refine ⟨?_, ?_, ?_, ?_⟩
  · constructor
    · intro h
      by_cases he : email = ""
      · exact he
      · exfalso
        by_cases hp : password = "" ∨ password.utf8ByteSize < 8
        · rw [svcCreateUser, svcCreateUserWith_bad_password _ hash firstName lastName phone s he hp] at h
          exact absurd h (by simp)
        · rw [svcCreateUser, svcCreateUserWith_valid _ hash firstName lastName phone s he hp] at h
          exact absurd (repoCreate_some_err h) (by simp)
    · intro he
      rw [svcCreateUser, svcCreateUserWith_email_empty _ hash password firstName lastName phone s he]
  · intro he
    constructor
    · intro h
      by_cases hp : password = "" ∨ password.utf8ByteSize < 8
      · exact hp
      · exfalso
        rw [svcCreateUser, svcCreateUserWith_valid _ hash firstName lastName phone s he hp] at h
        exact absurd (repoCreate_some_err h) (by simp)
    · intro hp
      rw [svcCreateUser, svcCreateUserWith_bad_password _ hash firstName lastName phone s he hp]
  · intro create he
    exact svcCreateUserWith_email_empty create hash password firstName lastName phone s he
  · intro create he hp
    exact svcCreateUserWith_bad_password create hash firstName lastName phone s he hp

/-- Witness for C3: an empty email and the spec's example password
"short", on a concrete store, with a concrete alternative gateway. -/
theorem C3_create_validation_witness :
    (svcCreateUser (fun p => "H" ++ p) "" "longenough" "F" "L" "P" sSample).1 =
      .error .invalidEmail ∧
    (svcCreateUser (fun p => "H" ++ p) "new@x.com" "short" "F" "L" "P" sSample).1 =
      .error .invalidPassword ∧
    svcCreateUserWith (fun _ => (.ok uAlice, storeEmpty)) (fun p => "H" ++ p)
        "" "longenough" "F" "L" "P" sSample = (.error .invalidEmail, sSample) := by
  refine ⟨?_, ?_, ?_⟩
  · have h := (C3_create_validation (fun p => "H" ++ p) "" "longenough" "F" "L" "P" sSample).1
    exact h.mpr rfl
  · have h := (C3_create_validation (fun p => "H" ++ p) "new@x.com" "short" "F" "L" "P" sSample).2.1
      (by decide)
    exact (h).mpr (Or.inr (by decide))
  · exact (C3_create_validation (fun p => "H" ++ p) "" "longenough" "F" "L" "P" sSample).2.2.1
      (fun _ => (.ok uAlice, storeEmpty)) rfl

/-- C1 counterexample: for the spec's own input (page=0, pageSize=500) the
wire response reports pageSize=500, while the Domain Service delegated
pageSize=10 to the gateway; the response does not echo the effective
post-clamping value. -/
theorem C1_list_echo_counterexample :
    handlerListUsers { page := 0, pageSize := 500, filter := "" } sSample =
      .ok { users := [modelToProto uAlice], total := 1, page := 1, pageSize := 500 } ∧
    clampPageSize (handlerClampPageSize 500) = 10 ∧
    (500 : Int) ≠ 10 := by
  refine ⟨rfl, rfl, by decide⟩

/-- C1 amended: the response echoes the handler's locally sanitized
page/pageSize (page raised to 1, pageSize set to 10 only when below 1).
The echoed page always equals the effective page; the echoed pageSize
equals the effective value whenever the requested pageSize is at most
100, but for a requested pageSize above 100 the response reports the raw
request value while the gateway is called with 10. -/
theorem C1_list_echo_amended (req : ListUsersRequest) (s : Store) :
    handlerListUsers req s =
      .ok { users := (svcListUsers (handlerClampPage req.page)
                        (handlerClampPageSize req.pageSize) req.filter s).1.map modelToProto
            total := ((svcListUsers (handlerClampPage req.page)
                        (handlerClampPageSize req.pageSize) req.filter s).2 : Int)
            page := handlerClampPage req.page
            pageSize := handlerClampPageSize req.pageSize } ∧
    clampPage (handlerClampPage req.page) = handlerClampPage req.page ∧
    (req.pageSize ≤ 100 →
      clampPageSize (handlerClampPageSize req.pageSize) = handlerClampPageSize req.pageSize) ∧
    (100 < req.pageSize →
      handlerClampPageSize req.pageSize = req.pageSize ∧
      clampPageSize (handlerClampPageSize req.pageSize) = 10) := by
  refine ⟨rfl, ?_, ?_, ?_⟩
  · unfold clampPage handlerClampPage
    split
    · decide
    · rfl
  · intro hle
    by_cases h : req.pageSize < 1
    · unfold handlerClampPageSize
      rw [if_pos h]
      decide
    · unfold handlerClampPageSize
      rw [if_neg h]
      unfold clampPageSize
      rw [if_neg (by simp only [Bool.or_eq_true, decide_eq_true_eq, not_or]; omega)]
  · intro hgt
    have h1 : handlerClampPageSize req.pageSize = req.pageSize := by
      unfold handlerClampPageSize
      rw [if_neg (by omega)]
    refine ⟨h1, ?_⟩
    rw [h1]
    unfold clampPageSize
    rw [if_pos (by simp only [Bool.or_eq_true, decide_eq_true_eq]; omega)]

/-- Witness for C1 amended: a below-range and an above-range request. -/
theorem C1_list_echo_amended_witness :
    handlerListUsers { page := 0, pageSize := 50, filter := "" } sSample =
      .ok { users := [modelToProto uAlice], total := 1, page := 1, pageSize := 50 } ∧
    clampPageSize (handlerClampPageSize 50) = handlerClampPageSize 50 ∧
    handlerClampPageSize 500 = 500 ∧
    clampPageSize (handlerClampPageSize 500) = 10 := by
  refine ⟨?_, ?_, ?_, ?_⟩
  · have h := (C1_list_echo_amended { page := 0, pageSize := 50, filter := "" } sSample).1
    rw [h]; rfl
  · exact (C1_list_echo_amended { page := 0, pageSize := 50, filter := "" } sSample).2.2.1
      (by decide)
  · exact ((C1_list_echo_amended { page := 0, pageSize := 500, filter := "" } sSample).2.2.2
      (by decide)).1
  · exact ((C1_list_echo_amended { page := 0, pageSize := 500, filter := "" } sSample).2.2.2
      (by decide)).2

/-- Inversion for a successful `GetByID`: the row is stored, active, and
carries the requested id. -/
theorem repoGetByID_ok_inv {id : String} {s : Store} {u : User}
    (h : repoGetByID id s = .ok u) :
    u ∈ s.rows ∧ isActive u = true ∧ u.id = id := by
  unfold repoGetByID at h
  cases hf : s.findActive (fun r => r.id == id) <;> rw [hf] at h
  · exact absurd h (by simp)
  · rename_i v
    obtain ⟨hmem, hact, hp⟩ := findActive_some_inv hf
    cases h
    exact ⟨hmem, hact, by simpa using hp⟩

/-- Equation for `userRepository.Update` on an empty id. -/
theorem repoUpdate_emptyid {u : User} {s : Store} (hid : u.id = "") :
    repoUpdate (some u) s = (.error .invalidUserData, s) := by
  simp only [repoUpdate]
  rw [if_pos hid]

/-- Equation for `userRepository.Update` when no active row is addressed. -/
theorem repoUpdate_notfound {u : User} {s : Store} (hid : u.id ≠ "")
    (hany : (s.rows.any fun r => isActive r && r.id == u.id) = false) :
    repoUpdate (some u) s = (.error .userNotFound, s) := by
  simp only [repoUpdate]
  rw [if_neg hid, if_neg (by rw [hany]; simp)]

/-- Equation for a successful `userRepository.Update`: the addressed rows
receive the non-zero fields of the supplied record and the refreshed
`updatedAt` is written back into the supplied record. -/
theorem repoUpdate_pos {u : User} {s : Store} (hid : u.id ≠ "")
    (hany : (s.rows.any fun r => isActive r && r.id == u.id) = true) :
    repoUpdate (some u) s =
      (.ok { u with updatedAt := s.now },
        { s with
          rows := s.rows.map (fun r =>
            if isActive r && r.id == u.id then updRow u r s.now else r)
          now := s.now + 1 }) := by
  simp only [repoUpdate]
  rw [if_neg hid, if_pos hany]

/-- C2 counterexample: the key "phone" is present in the updates map with
the (string-typed) value "", yet the stored row keeps its old phone
"111": GORM's struct-based Updates skips zero-valued fields, so a present
key with an empty value does not change the stored record as the claim
demands. -/
theorem C2_sparse_update_counterexample :
    getStrUpd [("phone", UpdVal.str "")] "phone" = some "" ∧
    (applyUpdates uAlice [("phone", UpdVal.str "")]).phone = "" ∧
    (svcUpdateUser "id-0" [("phone", UpdVal.str "")] sSample).2.rows =
      [{ uAlice with updatedAt := 6 }, uDora] ∧
    uAlice.phone = "111" ∧ ("111" : String) ≠ "" := by
  refine ⟨rfl, rfl, rfl, rfl, by decide⟩

/-- C2 amended: on an existing user, updateUser merges exactly the
present typed keys (among the five permitted ones) into the fetched
record and returns that record with the storage-refreshed updatedAt; the
gateway then writes only the non-empty ("non-zero") merged fields to the
addressed row — a present key with an empty-string value leaves the
stored column unchanged — while the stored credential, id, createdAt and
soft-delete marker are untouched and every other row is unchanged. -/
theorem C2_sparse_update (id : String) (m : Updates) (s : Store) (u : User)
    (hu : repoGetByID id s = .ok u) (hid : id ≠ "") :
    (svcUpdateUser id m s).1 = .ok { applyUpdates u m with updatedAt := s.now } ∧
    (applyUpdates u m).password = u.password ∧
    (applyUpdates u m).id = u.id ∧
    (applyUpdates u m).createdAt = u.createdAt ∧
    (applyUpdates u m).deletedAt = u.deletedAt ∧
    (applyUpdates u m).email = (getStrUpd m "email").getD u.email ∧
    (applyUpdates u m).firstName = (getStrUpd m "first_name").getD u.firstName ∧
    (applyUpdates u m).lastName = (getStrUpd m "last_name").getD u.lastName ∧
    (applyUpdates u m).phone = (getStrUpd m "phone").getD u.phone ∧
    (applyUpdates u m).status = (getStatusUpd m "status").getD u.status ∧
    (svcUpdateUser id m s).2.rows = s.rows.map (fun r =>
      if isActive r && r.id == id then updRow (applyUpdates u m) r s.now else r) ∧
    updRow (applyUpdates u m) u s.now =
      { u with
        email := if (applyUpdates u m).email = "" then u.email
          else (applyUpdates u m).email
        firstName := if (applyUpdates u m).firstName = "" then u.firstName
          else (applyUpdates u m).firstName
        lastName := if (applyUpdates u m).lastName = "" then u.lastName
          else (applyUpdates u m).lastName
        phone := if (applyUpdates u m).phone = "" then u.phone
          else (applyUpdates u m).phone
        status := if (applyUpdates u m).status = "" then u.status
          else (applyUpdates u m).status
        updatedAt := s.now } := by
  obtain ⟨hmem, hact, hid_eq⟩ := repoGetByID_ok_inv hu
  have hmid : (applyUpdates u m).id = id := by rw [applyUpdates_eq]; exact hid_eq
  have hany : (s.rows.any fun r => isActive r && r.id == (applyUpdates u m).id) = true :=
    List.any_eq_true.mpr ⟨u, hmem, by rw [hmid]; simp [hact, hid_eq]⟩
  have hupd := repoUpdate_pos (show (applyUpdates u m).id ≠ "" by rw [hmid]; exact hid) hany
  have hsvc : svcUpdateUser id m s =
      (.ok { applyUpdates u m with updatedAt := s.now },
        { s with
          rows := s.rows.map (fun r =>
            if isActive r && r.id == (applyUpdates u m).id then
              updRow (applyUpdates u m) r s.now
            else r)
          now := s.now + 1 }) := by
    simp only [svcUpdateUser, hu, hupd]
  have hpw : (applyUpdates u m).password = u.password := by rw [applyUpdates_eq]
  refine ⟨by rw [hsvc], hpw, ?_, ?_, ?_, ?_, ?_, ?_, ?_, ?_, ?_, ?_⟩
  · rw [applyUpdates_eq]
  · rw [applyUpdates_eq]
  · rw [applyUpdates_eq]
  · rw [applyUpdates_eq]
  · rw [applyUpdates_eq]
  · rw [applyUpdates_eq]
  · rw [applyUpdates_eq]
  · rw [applyUpdates_eq]
  · rw [hsvc]
    simp only [hmid]
  · simp only [updRow, nzString, hpw, ite_self]

/-- Witness for C2 at the spec's own example
`updateUser(id, first_name = X)`. -/
theorem C2_sparse_update_witness :
    (svcUpdateUser "id-0" [("first_name", UpdVal.str "X")] sSample).1 =
      .ok { applyUpdates uAlice [("first_name", UpdVal.str "X")] with updatedAt := 6 } ∧
    (applyUpdates uAlice [("first_name", UpdVal.str "X")]).password = uAlice.password ∧
    (applyUpdates uAlice [("first_name", UpdVal.str "X")]).email =
      (getStrUpd [("first_name", UpdVal.str "X")] "email").getD uAlice.email ∧
    (applyUpdates uAlice [("first_name", UpdVal.str "X")]).firstName = "X" := by
  have h := C2_sparse_update "id-0" [("first_name", UpdVal.str "X")] sSample uAlice rfl
    (by decide)
  exact ⟨h.1, h.2.1, h.2.2.2.2.2.1, by decide⟩

/-- Visibility unfolded: active means no soft-delete timestamp. -/
theorem isActive_iff {u : User} : isActive u = true ↔ u.deletedAt = none := by
  unfold isActive
  cases u.deletedAt <;> simp

/-- A soft-deleted row never satisfies an active-scoped predicate. -/
theorem not_active_of_deleted {u : User} (h : u.deletedAt ≠ none) :
    isActive u = false := by
  unfold isActive
  cases hd : u.deletedAt
  · exact absurd hd h
  · rfl

/-- After a successful soft delete, no row with the deleted id is active. -/
theorem repoDelete_kills {id : String} {s s' : Store}
    (h : repoDelete id s = (.ok (), s')) :
    ∀ r ∈ s'.rows, (isActive r && r.id == id) = false := by
  unfold repoDelete at h
  by_cases hc : (s.rows.any fun r => isActive r && r.id == id) = true
  · rw [if_pos hc] at h
    cases h
    intro r hr
    simp only [List.mem_map] at hr
    obtain ⟨r0, hr0, hmap⟩ := hr
    by_cases hcond : (isActive r0 && r0.id == id) = true
    · rw [if_pos hcond] at hmap
      rw [← hmap]
      simp [isActive]
    · rw [if_neg hcond] at hmap
      rw [← hmap]
      exact Bool.not_eq_true _ ▸ (Bool.of_not_eq_true hcond)
  · rw [if_neg hc] at h
    exact absurd h (by simp)

/-- C4: a soft-deleted record is functionally absent: getById, getByEmail
and list never return it, update and delete leave it untouched, and after
a successful delete both a second delete and a get of the same id fail
with NotFound. -/
theorem C4_soft_deleted_absent :
    (∀ id s u, repoGetByID id s = .ok u → u.deletedAt = none) ∧
    (∀ email s u, repoGetByEmail email s = .ok u → u.deletedAt = none) ∧
    (∀ page pageSize filter s u, u ∈ (repoList page pageSize filter s).1 →
      u.deletedAt = none) ∧
    (∀ ou s, List.Forall₂ (fun r r' => r.deletedAt ≠ none → r' = r)
      s.rows (repoUpdate ou s).2.rows) ∧
    (∀ id s, List.Forall₂ (fun r r' => r.deletedAt ≠ none → r' = r)
      s.rows (repoDelete id s).2.rows) ∧
    (∀ id s s', repoDelete id s = (.ok (), s') →
      (repoDelete id s').1 = .error .userNotFound ∧
      repoGetByID id s' = .error .userNotFound) := by
  refine ⟨?_, ?_, ?_, ?_, ?_, ?_⟩
  · intro id s u h
    exact isActive_iff.mp (repoGetByID_ok_inv h).2.1
  · intro email s u h
    unfold repoGetByEmail at h
    cases hf : s.findActive (fun r => r.email == email) <;> rw [hf] at h
    · exact absurd h (by simp)
    · cases h
      exact isActive_iff.mp (findActive_some_inv hf).2.1
  · intro page pageSize filter s u h
    simp only [repoList] at h
    have hmem : u ∈ s.rows.filter (fun r => isActive r && matchesFilter filter r) :=
      List.drop_subset _ _ (List.take_subset _ _ h)
    have := (List.mem_filter.mp hmem).2
    simp only [Bool.and_eq_true] at this
    exact isActive_iff.mp this.1
  · intro ou s
    cases ou with
    | none => exact List.forall₂_same.mpr (fun r _ => fun _ => rfl)
    | some u =>
      simp only [repoUpdate]
      by_cases h1 : u.id = ""
      · rw [if_pos h1]
        exact List.forall₂_same.mpr (fun r _ => fun _ => rfl)
      · rw [if_neg h1]
        by_cases h2 : (s.rows.any fun r => isActive r && r.id == u.id) = true
        · rw [if_pos h2]
          apply forall₂_map_self
          intro r _ hdel
          rw [if_neg (by rw [not_active_of_deleted hdel]; simp)]
        · rw [if_neg h2]
          exact List.forall₂_same.mpr (fun r _ => fun _ => rfl)
  · intro id s
    simp only [repoDelete]
    by_cases h2 : (s.rows.any fun r => isActive r && r.id == id) = true
    · rw [if_pos h2]
      apply forall₂_map_self
      intro r _ hdel
      rw [if_neg (by rw [not_active_of_deleted hdel]; simp)]
    · rw [if_neg h2]
      exact List.forall₂_same.mpr (fun r _ => fun _ => rfl)
  · intro id s s' h
    have hkill := repoDelete_kills h
    have hany : (s'.rows.any fun r => isActive r && r.id == id) = false :=
      List.any_eq_false.mpr (fun r hr => by rw [hkill r hr]; simp)
    constructor
    · unfold repoDelete
      rw [if_neg (by rw [hany]; simp)]
    · unfold repoGetByID
      have hnone : s'.findActive (fun r => r.id == id) = none := by
        unfold Store.findActive
        exact List.find?_eq_none.mpr (fun r hr => by rw [hkill r hr]; simp)
      rw [hnone]

/-- Witness for C4 on the sample store: the soft-deleted row is invisible
to get and list, and delete-then-delete / delete-then-get fail. -/
theorem C4_soft_deleted_absent_witness :
    uAlice.deletedAt = none ∧
    (repoDelete "id-0" (repoDelete "id-0" sSample).2).1 = .error .userNotFound ∧
    repoGetByID "id-0" (repoDelete "id-0" sSample).2 = .error .userNotFound ∧
    repoGetByID "id-1" sSample = .error .userNotFound := by
  have h6 := C4_soft_deleted_absent.2.2.2.2.2 "id-0" sSample (repoDelete "id-0" sSample).2 rfl
  have h1 := C4_soft_deleted_absent.1 "id-0" sSample uAlice rfl
  exact ⟨h1, h6.1, h6.2, by rfl⟩

/-- C6: the gateway create fails with AlreadyExists exactly on an active
duplicate email, with InvalidInput on an absent user, and otherwise
inserts the record with storage-assigned id and timestamps and the
status defaulted to active when empty. -/
theorem C6_create_contract :
    (∀ s, repoCreate none s = (.error .invalidUserData, s)) ∧
    (∀ u s, (∃ r ∈ s.rows, isActive r = true ∧ r.email = u.email) →
      repoCreate (some u) s = (.error .userAlreadyExists, s)) ∧
    (∀ u s, (¬ ∃ r ∈ s.rows, isActive r = true ∧ r.email = u.email) →
      ∃ u', repoCreate (some u) s =
          (.ok u', { rows := s.rows ++ [u'], nextId := s.nextId + 1, now := s.now + 1 }) ∧
        u'.id = "id-" ++ toString s.nextId ∧
        u'.createdAt = s.now ∧ u'.updatedAt = s.now ∧ u'.deletedAt = none ∧
        u'.status = (if u.status = "" then UserStatusActive else u.status) ∧
        u'.email = u.email ∧ u'.password = u.password ∧
        u'.firstName = u.firstName ∧ u'.lastName = u.lastName ∧ u'.phone = u.phone) := by
  refine ⟨fun s => rfl, ?_, ?_⟩
  · rintro u s ⟨r, hr, hact, hem⟩
    have hsome : (s.findActive fun v => v.email == u.email).isSome = true :=
      findActive_isSome_iff.mpr ⟨r, hr, hact, by simp [hem]⟩
    cases hf : s.findActive fun v => v.email == u.email with
    | none => rw [hf] at hsome; exact absurd hsome (by simp)
    | some v =>
      simp only [repoCreate]
      rw [hf]
  · intro u s h
    cases hf : s.findActive fun v => v.email == u.email with
    | some v =>
      obtain ⟨hmem, hact, hp⟩ := findActive_some_inv hf
      exact absurd ⟨v, hmem, hact, by simpa using hp⟩ h
    | none =>
      refine ⟨{ u with
          id := "id-" ++ toString s.nextId
          status := if u.status = "" then UserStatusActive else u.status
          createdAt := s.now, updatedAt := s.now, deletedAt := none }, ?_, rfl, rfl, rfl,
        rfl, rfl, rfl, rfl, rfl, rfl, rfl⟩
      simp only [repoCreate]
      rw [hf]

/-- Witness for C6: duplicate active email fails, nil fails, fresh email
succeeds with populated id/timestamps. -/
theorem C6_create_contract_witness :
    repoCreate (some { uAlice with id := "" }) sSample =
      (.error .userAlreadyExists, sSample) ∧
    repoCreate none sSample = (.error .invalidUserData, sSample) ∧
    (repoCreate (some uNew) sSample).1 =
      .ok { uNew with id := "id-2", createdAt := 6, updatedAt := 6, deletedAt := none } := by
  refine ⟨C6_create_contract.2.1 _ sSample ⟨uAlice, by decide, by decide, rfl⟩,
    C6_create_contract.1 sSample, by rfl⟩

/-- C7 counterexample: a supplied record with an empty phone does not
clear the stored phone of the addressed row: GORM's struct-based Updates
skips zero-valued fields, so the gateway update is not a full-record
rewrite of all fields of the supplied record. -/
theorem C7_update_counterexample :
    ({ uNew with id := "id-0", phone := "" } : User).phone = "" ∧
    (repoUpdate (some { uNew with id := "id-0", phone := "" }) sSample).2.rows =
      [{ uAlice with
          email := "new@x.com"
          password := "hash-new"
          firstName := "Nia"
          lastName := "New"
          updatedAt := 6 }, uDora] ∧
    uAlice.phone = "111" ∧ ("111" : String) ≠ "" := by
  refine ⟨rfl, rfl, rfl, by decide⟩

/-- C7 amended: gateway update fails with InvalidInput exactly when the
user is absent or its id is empty; with a non-empty id it addresses the
active row with that id and writes each non-empty field of the supplied
record, keeping the stored value where the supplied field is empty (the
ORM's struct-based update skips zero values), refreshing updatedAt and
writing it back into the supplied record; it fails with NotFound exactly
when no active row carries the id, leaving the store unchanged in every
failure case. -/
theorem C7_update_contract :
    (∀ s, repoUpdate none s = (.error .invalidUserData, s)) ∧
    (∀ u s, u.id = "" → repoUpdate (some u) s = (.error .invalidUserData, s)) ∧
    (∀ u s, u.id ≠ "" → (repoUpdate (some u) s).1 ≠ .error .invalidUserData) ∧
    (∀ u s, u.id ≠ "" → (¬ ∃ r ∈ s.rows, isActive r = true ∧ r.id = u.id) →
      repoUpdate (some u) s = (.error .userNotFound, s)) ∧
    (∀ u s, u.id ≠ "" → (∃ r ∈ s.rows, isActive r = true ∧ r.id = u.id) →
      (repoUpdate (some u) s).1 = .ok { u with updatedAt := s.now } ∧
      (repoUpdate (some u) s).2.rows = s.rows.map (fun r =>
        if isActive r && r.id == u.id then
          { id := r.id
            email := if u.email = "" then r.email else u.email
            password := if u.password = "" then r.password else u.password
            firstName := if u.firstName = "" then r.firstName else u.firstName
            lastName := if u.lastName = "" then r.lastName else u.lastName
            phone := if u.phone = "" then r.phone else u.phone
            status := if u.status = "" then r.status else u.status
            createdAt := r.createdAt, updatedAt := s.now
            deletedAt := r.deletedAt }
        else r)) := by
  refine ⟨fun s => rfl, ?_, ?_, ?_, ?_⟩
  · intro u s h
    exact repoUpdate_emptyid h
  · intro u s h
    by_cases h2 : (s.rows.any fun r => isActive r && r.id == u.id) = true
    · rw [repoUpdate_pos h h2]; simp
    · rw [repoUpdate_notfound h (by rw [Bool.eq_false_iff]; exact h2)]; simp
  · intro u s h hno
    have hany : (s.rows.any fun r => isActive r && r.id == u.id) = false := by
      refine List.any_eq_false.mpr (fun r hr hc => ?_)
      simp only [Bool.and_eq_true, beq_iff_eq] at hc
      exact hno ⟨r, hr, hc.1, hc.2⟩
    exact repoUpdate_notfound h hany
  · rintro u s h ⟨r, hr, hact, hid⟩
    have hany : (s.rows.any fun v => isActive v && v.id == u.id) = true :=
      List.any_eq_true.mpr ⟨r, hr, by simp [hact, hid]⟩
    rw [repoUpdate_pos h hany]
    exact ⟨rfl, rfl⟩

/-- Witness for C7: empty id, non-existent id, and a successful update of
the sample row with the refreshed updatedAt written back. -/
theorem C7_update_contract_witness :
    repoUpdate (some { uNew with id := "" }) sSample =
      (.error .invalidUserData, sSample) ∧
    repoUpdate (some { uNew with id := "id-404" }) sSample =
      (.error .userNotFound, sSample) ∧
    (repoUpdate (some { uNew with id := "id-0" }) sSample).1 =
      .ok { uNew with id := "id-0", updatedAt := 6 } := by
  refine ⟨C7_update_contract.2.1 _ sSample rfl,
    C7_update_contract.2.2.2.1 _ sSample (by decide) (by decide),
    (C7_update_contract.2.2.2.2 _ sSample (by decide)
      ⟨uAlice, by decide, by decide, by decide⟩).1⟩

/-- C10: the delete path does no id validation: deleteUser delegates
straight to the gateway, whose outcome is always success or NotFound
(never InvalidInput), and an empty or unknown id yields NotFound with the
store unchanged; the update path by contrast rejects an empty id with
InvalidInput before touching the rows. -/
theorem C10_delete_no_validation :
    (∀ id s, svcDeleteUser id s = repoDelete id s) ∧
    (∀ id s, (repoDelete id s).1 = .ok () ∨
      repoDelete id s = (.error .userNotFound, s)) ∧
    (∀ id s, (¬ ∃ r ∈ s.rows, isActive r = true ∧ r.id = id) →
      repoDelete id s = (.error .userNotFound, s)) ∧
    (∀ s, (∀ r ∈ s.rows, r.id ≠ "") →
      repoDelete "" s = (.error .userNotFound, s)) ∧
    (∀ u s, u.id = "" → repoUpdate (some u) s = (.error .invalidUserData, s)) := by
  refine ⟨fun id s => rfl, ?_, ?_, ?_, ?_⟩
  · intro id s
    unfold repoDelete
    by_cases h : (s.rows.any fun r => isActive r && r.id == id) = true
    · left; rw [if_pos h]
    · right; rw [if_neg h]
  · intro id s hno
    have hany : (s.rows.any fun r => isActive r && r.id == id) = false := by
      refine List.any_eq_false.mpr (fun r hr hc => ?_)
      simp only [Bool.and_eq_true, beq_iff_eq] at hc
      exact hno ⟨r, hr, hc.1, hc.2⟩
    unfold repoDelete
    rw [if_neg (by rw [hany]; simp)]
  · intro s hids
    have hany : (s.rows.any fun r => isActive r && r.id == "") = false := by
      refine List.any_eq_false.mpr (fun r hr hc => ?_)
      simp only [Bool.and_eq_true, beq_iff_eq] at hc
      exact hids r hr hc.2
    unfold repoDelete
    rw [if_neg (by rw [hany]; simp)]
  · intro u s h
    simp only [repoUpdate]
    rw [if_pos h]

/-- Witness for C10: empty-id and unknown-id delete on the sample store,
and the contrasting update rejection. -/
theorem C10_delete_no_validation_witness :
    svcDeleteUser "" sSample = repoDelete "" sSample ∧
    repoDelete "" sSample = (.error .userNotFound, sSample) ∧
    repoDelete "id-404" sSample = (.error .userNotFound, sSample) ∧
    repoUpdate (some { uAlice with id := "" }) sSample =
      (.error .invalidUserData, sSample) := by
  refine ⟨C10_delete_no_validation.1 "" sSample,
    C10_delete_no_validation.2.2.2.1 sSample (by decide),
    C10_delete_no_validation.2.2.1 "id-404" sSample (by decide),
    C10_delete_no_validation.2.2.2.2 _ sSample rfl⟩

/-- Errors producible by `userService.CreateUser`: its two validation
errors or the gateway's duplicate-email error. -/
theorem svcCreateUser_err_inv {hash : String → String}
    {email password firstName lastName phone : String} {s : Store} {e : Err}
    (h : (svcCreateUser hash email password firstName lastName phone s).1 = .error e) :
    e = .invalidEmail ∨ e = .invalidPassword ∨ e = .userAlreadyExists := by
  by_cases he : email = ""
  · rw [svcCreateUser,
      svcCreateUserWith_email_empty _ hash password firstName lastName phone s he] at h
    simp only [Except.error.injEq] at h
    exact Or.inl h.symm
  · by_cases hp : password = "" ∨ password.utf8ByteSize < 8
    · rw [svcCreateUser,
        svcCreateUserWith_bad_password _ hash firstName lastName phone s he hp] at h
      simp only [Except.error.injEq] at h
      exact Or.inr (Or.inl h.symm)
    · rw [svcCreateUser,
        svcCreateUserWith_valid _ hash firstName lastName phone s he hp] at h
      exact Or.inr (Or.inr (repoCreate_some_err h))

/-- The only error `userRepository.GetByID` reports is `ErrUserNotFound`. -/
theorem repoGetByID_err_inv {id : String} {s : Store} {e : Err}
    (h : repoGetByID id s = .error e) : e = .userNotFound := by
  unfold repoGetByID at h
  cases hf : s.findActive (fun r => r.id == id) <;> rw [hf] at h <;> simp_all

/-- The only errors `userRepository.Update` reports are
`ErrInvalidUserData` and `ErrUserNotFound`. -/
theorem repoUpdate_err_inv {ou : Option User} {s : Store} {e : Err}
    (h : (repoUpdate ou s).1 = .error e) :
    e = .invalidUserData ∨ e = .userNotFound := by
  cases ou with
  | none => simp only [repoUpdate, Except.error.injEq] at h; exact Or.inl h.symm
  | some u =>
    simp only [repoUpdate] at h
    by_cases h1 : u.id = ""
    · rw [if_pos h1] at h
      simp only [Except.error.injEq] at h
      exact Or.inl h.symm
    · rw [if_neg h1] at h
      by_cases h2 : (s.rows.any fun r => isActive r && r.id == u.id) = true
      · rw [if_pos h2] at h
        exact absurd h (by simp)
      · rw [if_neg h2] at h
        simp only [Except.error.injEq] at h
        exact Or.inr h.symm

/-- The only error `userRepository.Delete` reports is `ErrUserNotFound`. -/
theorem repoDelete_err_inv {id : String} {s : Store} {e : Err}
    (h : (repoDelete id s).1 = .error e) : e = .userNotFound := by
  unfold repoDelete at h
  by_cases h2 : (s.rows.any fun r => isActive r && r.id == id) = true
  · rw [if_pos h2] at h
    exact absurd h (by simp)
  · rw [if_neg h2] at h
    simp only [Except.error.injEq] at h
    exact h.symm

/-- Errors producible by `userService.UpdateUser`. -/
theorem svcUpdateUser_err_inv {id : String} {m : Updates} {s : Store} {e : Err}
    (h : (svcUpdateUser id m s).1 = .error e) :
    e = .userNotFound ∨ e = .invalidUserData := by
  unfold svcUpdateUser at h
  cases hg : repoGetByID id s with
  | error e0 =>
    rw [hg] at h
    simp only [Except.error.injEq] at h
    rw [← h]
    exact Or.inl (repoGetByID_err_inv hg)
  | ok u =>
    rcases hru : repoUpdate (some (applyUpdates u m)) s with ⟨res, s2⟩
    simp only [hg, hru] at h
    cases res with
    | error e1 =>
      simp only [Except.error.injEq] at h
      rw [← h]
      rcases repoUpdate_err_inv
          (show (repoUpdate (some (applyUpdates u m)) s).1 = Except.error e1 by
            rw [hru]) with h1 | h1
      · exact Or.inr h1
      · exact Or.inl h1
    | ok v => exact absurd h (by simp)

/-- C8: each handler maps every error its service call can produce to the
claimed wire code (conflict for AlreadyExists, not-found for NotFound,
generic internal otherwise, including the service's own InvalidEmail and
InvalidPassword), and every message is a fixed generic literal, never the
internal error text. -/
theorem C8_error_mapping :
    (∀ msg, createErrStatus (.internal msg) =
      { code := .internal, msg := "failed to create user" }) ∧
    (∀ msg, getErrStatus (.internal msg) =
      { code := .internal, msg := "failed to get user" }) ∧
    (∀ msg, updateErrStatus (.internal msg) =
      { code := .internal, msg := "failed to update user" }) ∧
    (∀ msg, deleteErrStatus (.internal msg) =
      { code := .internal, msg := "failed to delete user" }) ∧
    createErrStatus .invalidEmail = { code := .internal, msg := "failed to create user" } ∧
    createErrStatus .invalidPassword =
      { code := .internal, msg := "failed to create user" } ∧
    createErrStatus .userAlreadyExists =
      { code := .alreadyExists, msg := "user already exists" } ∧
    getErrStatus .userNotFound = { code := .notFound, msg := "user not found" } ∧
    (∀ hash req s e,
      (svcCreateUser hash req.email req.password req.firstName req.lastName
        req.phone s).1 = .error e →
      (handlerCreateUser hash req s).1 = .error (createErrStatus e) ∧
      (createErrStatus e).code = claimedCode e) ∧
    (∀ req s e, svcGetUser req.id s = .error e →
      handlerGetUser req s = .error (getErrStatus e) ∧
      (getErrStatus e).code = claimedCode e) ∧
    (∀ req s e, svcGetUserByEmail req.email s = .error e →
      handlerGetUserByEmail req s = .error (getErrStatus e) ∧
      (getErrStatus e).code = claimedCode e) ∧
    (∀ req s e, (svcUpdateUser req.id (buildUpdates req) s).1 = .error e →
      (handlerUpdateUser req s).1 = .error (updateErrStatus e) ∧
      (updateErrStatus e).code = claimedCode e) ∧
    (∀ req s e, (svcDeleteUser req.id s).1 = .error e →
      (handlerDeleteUser req s).1 = .error (deleteErrStatus e) ∧
      (deleteErrStatus e).code = claimedCode e) := by
  refine ⟨fun msg => rfl, fun msg => rfl, fun msg => rfl, fun msg => rfl,
    rfl, rfl, rfl, rfl, ?_, ?_, ?_, ?_, ?_⟩
  · intro hash req s e h
    constructor
    · rcases hp : svcCreateUser hash req.email req.password req.firstName
          req.lastName req.phone s with ⟨res, s2⟩
      rw [hp] at h
      have hres : res = .error e := h
      subst hres
      simp only [handlerCreateUser, hp]
    · rcases svcCreateUser_err_inv h with he | he | he <;> subst he <;> rfl
  · intro req s e h
    constructor
    · simp only [handlerGetUser, svcGetUser] at h ⊢
      rw [h]
    · have he := repoGetByID_err_inv (show repoGetByID req.id s = Except.error e from h)
      subst he
      rfl
  · intro req s e h
    constructor
    · simp only [handlerGetUserByEmail, svcGetUserByEmail] at h ⊢
      rw [h]
    · unfold svcGetUserByEmail repoGetByEmail at h
      cases hf : s.findActive (fun r => r.email == req.email) <;> rw [hf] at h <;>
        simp_all
      subst h
      rfl
  · intro req s e h
    constructor
    · rcases hp : svcUpdateUser req.id (buildUpdates req) s with ⟨res, s2⟩
      rw [hp] at h
      have hres : res = .error e := h
      subst hres
      simp only [handlerUpdateUser, hp]
    · rcases svcUpdateUser_err_inv h with he | he <;> subst he <;> rfl
  · intro req s e h
    constructor
    · rcases hp : svcDeleteUser req.id s with ⟨res, s2⟩
      rw [hp] at h
      have hres : res = .error e := h
      subst hres
      simp only [handlerDeleteUser, hp]
    · have he := repoDelete_err_inv (show (repoDelete req.id s).1 = Except.error e from h)
      subst he
      rfl

/-- Witness for C8: a duplicate-email create maps to conflict, an unknown
get id maps to not-found, and a validation failure maps to the generic
internal failure. -/
theorem C8_error_mapping_witness :
    (handlerCreateUser (fun p => "H" ++ p)
      { email := "alice@x.com", password := "longenough", firstName := "F"
        lastName := "L", phone := "P" } sSample).1 =
      .error { code := .alreadyExists, msg := "user already exists" } ∧
    handlerGetUser { id := "id-404" } sSample =
      .error { code := .notFound, msg := "user not found" } ∧
    (handlerCreateUser (fun p => "H" ++ p)
      { email := "new@x.com", password := "short", firstName := "F"
        lastName := "L", phone := "P" } sSample).1 =
      .error { code := .internal, msg := "failed to create user" } := by
  refine ⟨?_, ?_, ?_⟩
  · exact (C8_error_mapping.2.2.2.2.2.2.2.2.1 (fun p => "H" ++ p)
      { email := "alice@x.com", password := "longenough", firstName := "F"
        lastName := "L", phone := "P" } sSample .userAlreadyExists rfl).1
  · exact (C8_error_mapping.2.2.2.2.2.2.2.2.2.1
      { id := "id-404" } sSample .userNotFound rfl).1
  · exact (C8_error_mapping.2.2.2.2.2.2.2.2.1 (fun p => "H" ++ p)
      { email := "new@x.com", password := "short", firstName := "F"
        lastName := "L", phone := "P" } sSample .invalidPassword rfl).1

/-- Rewriting credentials commutes with active-row lookup for predicates
that do not read the credential. -/
theorem findActive_scrub (g : User → String) (p : User → Bool)
    (hp : ∀ u, p (scrubUser g u) = p u) (s : Store) :
    (scrub g s).findActive p = Option.map (scrubUser g) (s.findActive p) := by
  unfold Store.findActive scrub
  simp only
  have hpe : ((fun u => isActive u && p u) ∘ scrubUser g) = (fun u => isActive u && p u) := by
    funext u
    simp only [Function.comp]
    rw [hp u]
    rfl
  rw [List.find?_map, hpe]

/-- Rewriting credentials does not change any active-row existence check
keyed on the id. -/
theorem any_scrub (g : User → String) (p : User → Bool)
    (hp : ∀ u, p (scrubUser g u) = p u) (s : Store) :
    (scrub g s).rows.any p = s.rows.any p := by
  unfold scrub
  simp only
  rw [List.any_map]
  congr 1
  funext u
  simp only [Function.comp]
  exact hp u

/-- The encoder ignores the credential. -/
theorem modelToProto_scrub (g : User → String) (u : User) :
    modelToProto (scrubUser g u) = modelToProto u := rfl

/-- The sparse merge commutes with credential rewriting. -/
theorem applyUpdates_scrub (g : User → String) (u : User) (m : Updates) :
    applyUpdates (scrubUser g u) m = { applyUpdates u m with password := g u } := by
  rw [applyUpdates_eq, applyUpdates_eq]
  rfl

/-- Gateway create reports the same outcome (and, on success, the same
created record) regardless of stored credentials. -/
theorem repoCreate_fst_scrub (g : User → String) (u : User) (s : Store) :
    (repoCreate (some u) (scrub g s)).1 = (repoCreate (some u) s).1 := by
  have hf := findActive_scrub g (fun r => r.email == u.email) (fun r => rfl) s
  cases h : s.findActive (fun r => r.email == u.email) with
  | none =>
    rw [h] at hf
    simp only [Option.map_none'] at hf
    simp only [repoCreate, hf, h]
    rfl
  | some v =>
    rw [h] at hf
    simp only [Option.map_some'] at hf
    simp only [repoCreate, hf, h]

/-- The active-row existence check behind a gateway update is blind to
stored credentials. -/
theorem repoUpdate_any_scrub (g : User → String) (id : String) (s : Store) :
    ((scrub g s).rows.any fun r => isActive r && r.id == id) =
      (s.rows.any fun r => isActive r && r.id == id) :=
  any_scrub g (fun r => isActive r && r.id == id) (fun r => rfl) s

/-- Gateway delete reports the same outcome regardless of stored
credentials. -/
theorem repoDelete_fst_scrub (g : User → String) (id : String) (s : Store) :
    (repoDelete id (scrub g s)).1 = (repoDelete id s).1 := by
  have hany := any_scrub g (fun r => isActive r && r.id == id) (fun r => rfl) s
  unfold repoDelete
  by_cases h2 : (s.rows.any fun r => isActive r && r.id == id) = true
  · rw [if_pos (by rw [hany]; exact h2), if_pos h2]
  · rw [if_neg (by rw [hany]; exact h2), if_neg h2]

/-- GetUser responses are invariant under credential rewriting. -/
theorem handlerGetUser_scrub (g : User → String) (req : GetUserRequest) (s : Store) :
    handlerGetUser req (scrub g s) = handlerGetUser req s := by
  have hf := findActive_scrub g (fun r => r.id == req.id) (fun r => rfl) s
  cases h : s.findActive (fun r => r.id == req.id) with
  | none =>
    rw [h] at hf
    simp only [Option.map_none'] at hf
    have hg1 : repoGetByID req.id (scrub g s) = .error .userNotFound := by
      unfold repoGetByID
      rw [hf]
    have hg2 : repoGetByID req.id s = .error .userNotFound := by
      unfold repoGetByID
      rw [h]
    simp only [handlerGetUser, svcGetUser, hg1, hg2]
  | some u =>
    rw [h] at hf
    simp only [Option.map_some'] at hf
    have hg1 : repoGetByID req.id (scrub g s) = .ok (scrubUser g u) := by
      unfold repoGetByID
      rw [hf]
    have hg2 : repoGetByID req.id s = .ok u := by
      unfold repoGetByID
      rw [h]
    simp only [handlerGetUser, svcGetUser, hg1, hg2]
    rfl

/-- GetUserByEmail responses are invariant under credential rewriting. -/
theorem handlerGetUserByEmail_scrub (g : User → String) (req : GetUserByEmailRequest)
    (s : Store) :
    handlerGetUserByEmail req (scrub g s) = handlerGetUserByEmail req s := by
  have hf := findActive_scrub g (fun r => r.email == req.email) (fun r => rfl) s
  cases h : s.findActive (fun r => r.email == req.email) with
  | none =>
    rw [h] at hf
    simp only [Option.map_none'] at hf
    have hg1 : repoGetByEmail req.email (scrub g s) = .error .userNotFound := by
      unfold repoGetByEmail
      rw [hf]
    have hg2 : repoGetByEmail req.email s = .error .userNotFound := by
      unfold repoGetByEmail
      rw [h]
    simp only [handlerGetUserByEmail, svcGetUserByEmail, hg1, hg2]
  | some u =>
    rw [h] at hf
    simp only [Option.map_some'] at hf
    have hg1 : repoGetByEmail req.email (scrub g s) = .ok (scrubUser g u) := by
      unfold repoGetByEmail
      rw [hf]
    have hg2 : repoGetByEmail req.email s = .ok u := by
      unfold repoGetByEmail
      rw [h]
    simp only [handlerGetUserByEmail, svcGetUserByEmail, hg1, hg2]
    rfl

/-- CreateUser responses are invariant under credential rewriting. -/
theorem handlerCreateUser_fst_scrub (g : User → String) (hash : String → String)
    (req : CreateUserRequest) (s : Store) :
    (handlerCreateUser hash req (scrub g s)).1 = (handlerCreateUser hash req s).1 := by
  by_cases he : req.email = ""
  · have h1 := svcCreateUserWith_email_empty (fun u => repoCreate u (scrub g s)) hash
      req.password req.firstName req.lastName req.phone (scrub g s) he
    have h2 := svcCreateUserWith_email_empty (fun u => repoCreate u s) hash
      req.password req.firstName req.lastName req.phone s he
    simp only [handlerCreateUser, svcCreateUser, h1, h2]
  · by_cases hp : req.password = "" ∨ req.password.utf8ByteSize < 8
    · have h1 := svcCreateUserWith_bad_password (fun u => repoCreate u (scrub g s)) hash
        req.firstName req.lastName req.phone (scrub g s) he hp
      have h2 := svcCreateUserWith_bad_password (fun u => repoCreate u s) hash
        req.firstName req.lastName req.phone s he hp
      simp only [handlerCreateUser, svcCreateUser, h1, h2]
    · have h1 := svcCreateUserWith_valid (fun u => repoCreate u (scrub g s)) hash
        req.firstName req.lastName req.phone (scrub g s) he hp
      have h2 := svcCreateUserWith_valid (fun u => repoCreate u s) hash
        req.firstName req.lastName req.phone s he hp
      simp only [handlerCreateUser, svcCreateUser, h1, h2]
      have hc := repoCreate_fst_scrub g
        { id := "", email := req.email, password := hash req.password
          firstName := req.firstName, lastName := req.lastName, phone := req.phone
          status := UserStatusActive, createdAt := 0, updatedAt := 0, deletedAt := none } s
      rcases ha : repoCreate (some
          { id := "", email := req.email, password := hash req.password
            firstName := req.firstName, lastName := req.lastName, phone := req.phone
            status := UserStatusActive, createdAt := 0, updatedAt := 0,
            deletedAt := none }) (scrub g s) with ⟨r1, t1⟩
      rcases hb : repoCreate (some
          { id := "", email := req.email, password := hash req.password
            firstName := req.firstName, lastName := req.lastName, phone := req.phone
            status := UserStatusActive, createdAt := 0, updatedAt := 0,
            deletedAt := none }) s with ⟨r2, t2⟩
      rw [ha, hb] at hc
      have hr : r1 = r2 := hc
      subst hr
      cases r1 <;> rfl

/-- UpdateUser responses are invariant under credential rewriting. -/
theorem handlerUpdateUser_fst_scrub (g : User → String) (req : UpdateUserRequest)
    (s : Store) :
    (handlerUpdateUser req (scrub g s)).1 = (handlerUpdateUser req s).1 := by
  have hf := findActive_scrub g (fun r => r.id == req.id) (fun r => rfl) s
  cases h : s.findActive (fun r => r.id == req.id) with
  | none =>
    rw [h] at hf
    simp only [Option.map_none'] at hf
    have hg1 : repoGetByID req.id (scrub g s) = .error .userNotFound := by
      unfold repoGetByID
      rw [hf]
    have hg2 : repoGetByID req.id s = .error .userNotFound := by
      unfold repoGetByID
      rw [h]
    simp only [handlerUpdateUser, svcUpdateUser, hg1, hg2]
  | some u =>
    rw [h] at hf
    simp only [Option.map_some'] at hf
    have hg1 : repoGetByID req.id (scrub g s) = .ok (scrubUser g u) := by
      unfold repoGetByID
      rw [hf]
    have hg2 : repoGetByID req.id s = .ok u := by
      unfold repoGetByID
      rw [h]
    simp only [handlerUpdateUser, svcUpdateUser, hg1, hg2]
    have hid : (applyUpdates (scrubUser g u) (buildUpdates req)).id =
        (applyUpdates u (buildUpdates req)).id := by
      rw [applyUpdates_scrub]
    by_cases h0 : (applyUpdates u (buildUpdates req)).id = ""
    · rw [repoUpdate_emptyid (show (applyUpdates (scrubUser g u) (buildUpdates req)).id = ""
          by rw [hid]; exact h0),
        repoUpdate_emptyid h0]
    · by_cases h1 : (s.rows.any fun r =>
          isActive r && r.id == (applyUpdates u (buildUpdates req)).id) = true
      · have h1' : ((scrub g s).rows.any fun r =>
            isActive r && r.id == (applyUpdates (scrubUser g u) (buildUpdates req)).id) =
              true := by
          rw [hid, repoUpdate_any_scrub]
          exact h1
        rw [repoUpdate_pos (show (applyUpdates (scrubUser g u) (buildUpdates req)).id ≠ ""
            by rw [hid]; exact h0) h1',
          repoUpdate_pos h0 h1]
        simp only [applyUpdates_scrub]
        rfl
      · have h1f : (s.rows.any fun r =>
            isActive r && r.id == (applyUpdates u (buildUpdates req)).id) = false := by
          rw [Bool.eq_false_iff]
          exact h1
        have h1' : ((scrub g s).rows.any fun r =>
            isActive r && r.id == (applyUpdates (scrubUser g u) (buildUpdates req)).id) =
              false := by
          rw [hid, repoUpdate_any_scrub]
          exact h1f
        rw [repoUpdate_notfound (show (applyUpdates (scrubUser g u) (buildUpdates req)).id ≠ ""
            by rw [hid]; exact h0) h1',
          repoUpdate_notfound h0 h1f]

/-- DeleteUser responses are invariant under credential rewriting. -/
theorem handlerDeleteUser_fst_scrub (g : User → String) (req : DeleteUserRequest)
    (s : Store) :
    (handlerDeleteUser req (scrub g s)).1 = (handlerDeleteUser req s).1 := by
  simp only [handlerDeleteUser, svcDeleteUser]
  have hfst := repoDelete_fst_scrub g req.id s
  rcases ha : repoDelete req.id (scrub g s) with ⟨r1, t1⟩
  rcases hb : repoDelete req.id s with ⟨r2, t2⟩
  rw [ha, hb] at hfst
  have hr : r1 = r2 := hfst
  subst hr
  cases r1 <;> rfl

/-- ListUsers responses are invariant under credential rewriting. -/
theorem handlerListUsers_scrub (g : User → String) (req : ListUsersRequest) (s : Store) :
    handlerListUsers req (scrub g s) = handlerListUsers req s := by
  simp only [handlerListUsers, svcListUsers, repoList, scrub]
  have hpe : ((fun r => isActive r && matchesFilter req.filter r) ∘ scrubUser g) =
      (fun r => isActive r && matchesFilter req.filter r) := funext fun r => rfl
  rw [List.filter_map, hpe, List.length_map, ← List.map_drop, ← List.map_take,
    List.map_map]
  have hcomp : modelToProto ∘ scrubUser g = modelToProto := funext fun u => rfl
  rw [hcomp]

/-- C9: the wire encoder produces exactly the eight public fields, is
blind to the credential, and every handler response is invariant under
arbitrary rewriting of every stored credential hash: the credential hash
never appears in any external representation. -/
theorem C9_credential_never_serialized :
    (∀ u, modelToProto u =
      { id := u.id, email := u.email, firstName := u.firstName, lastName := u.lastName
        phone := u.phone, status := modelStatusToProto u.status
        createdAt := u.createdAt, updatedAt := u.updatedAt }) ∧
    (∀ u p, modelToProto { u with password := p } = modelToProto u) ∧
    (∀ g hash req s,
      (handlerCreateUser hash req (scrub g s)).1 = (handlerCreateUser hash req s).1) ∧
    (∀ g req s, handlerGetUser req (scrub g s) = handlerGetUser req s) ∧
    (∀ g req s, handlerGetUserByEmail req (scrub g s) = handlerGetUserByEmail req s) ∧
    (∀ g req s, (handlerUpdateUser req (scrub g s)).1 = (handlerUpdateUser req s).1) ∧
    (∀ g req s, (handlerDeleteUser req (scrub g s)).1 = (handlerDeleteUser req s).1) ∧
    (∀ g req s, handlerListUsers req (scrub g s) = handlerListUsers req s) :=
  ⟨fun u => rfl, fun u p => rfl,
    fun g hash req s => handlerCreateUser_fst_scrub g hash req s,
    fun g req s => handlerGetUser_scrub g req s,
    fun g req s => handlerGetUserByEmail_scrub g req s,
    fun g req s => handlerUpdateUser_fst_scrub g req s,
    fun g req s => handlerDeleteUser_fst_scrub g req s,
    fun g req s => handlerListUsers_scrub g req s⟩
